import Mathlib

/-!
Verification of the audio-processing and script-generation routines of the
celebrity-voice-panel application.  The Python functions of
src/scripts/audio_stitcher.py, src/scripts/script_generator.py and
src/scripts/voice_cloner.py are embedded as Lean functions: numpy float
arrays become lists over a linear ordered field (exact arithmetic in place
of IEEE floats), numpy broadcast errors become Option.none, and Python
exceptions become Option / Except failures.
-/

namespace VoicePanel

/-- Elementwise model of np.linspace(a, b, m): for m = 0 the empty list,
otherwise the m points a + i * (b - a) / (m - 1).  For m = 1 numpy returns
the single point a, which the formula also yields because division by zero
is zero in Lean fields. -/
def linspace {α : Type} [LinearOrderedField α] (a b : α) (m : ℕ) : List α :=
  (List.range m).map (fun i : ℕ => a + (i : α) * (b - a) / ((m : α) - 1))

/-- Python slice a[-n:] on a list.  Note that for n = 0 the slice a[-0:] is
a[0:], the whole list, not the empty suffix. -/
def takeLastPy {α : Type} (n : ℕ) (l : List α) : List α :=
  if n = 0 then l else l.drop (l.length - n)

/-- Python slice a[:-n] on a list.  Note that for n = 0 the slice a[:-0] is
a[:0], the empty list, not the whole list. -/
def dropLastPy {α : Type} (n : ℕ) (l : List α) : List α :=
  if n = 0 then [] else l.take (l.length - n)

/-- numpy elementwise binary operation with one-dimensional broadcasting:
defined when the two lengths agree or one operand has length one, a
broadcast error (none) otherwise. -/
def npBinop {α : Type} [LinearOrderedField α] (f : α → α → α) (x y : List α) :
    Option (List α) :=
  if x.length = y.length then some (List.zipWith f x y)
  else if x.length = 1 then some (y.map (fun b => f (x.headD 0) b))
  else if y.length = 1 then some (x.map (fun a => f a (y.headD 0)))
  else none

/-- AudioStitcher.add_silence: np.zeros(int(sample_rate * duration_ms / 1000)).
Python's int() truncates the nonnegative quotient toward zero, which is
natural-number division. -/
def add_silence {α : Type} [LinearOrderedField α] (sample_rate duration_ms : ℕ) : List α :=
  List.replicate (sample_rate * duration_ms / 1000) 0

/-- AudioStitcher.crossfade.  fade_samples = int(sample_rate * fade_ms / 1000);
if either clip is strictly shorter than fade_samples, plain concatenation.
Otherwise the last fade_samples of audio1 are multiplied by a linear 1 to 0
ramp, the first fade_samples of audio2 by a 0 to 1 ramp, the two overlap
regions are added samplewise and the three pieces are concatenated.  The
degenerate Python slices audio1[-0:] and audio1[:-0] and numpy broadcasting
(including its error) are modelled exactly. -/
def crossfade {α : Type} [LinearOrderedField α] (sample_rate : ℕ) (audio1 audio2 : List α)
    (fade_duration_ms : ℕ) : Option (List α) :=
  let fade_samples := sample_rate * fade_duration_ms / 1000
  if audio1.length < fade_samples ∨ audio2.length < fade_samples then
    some (audio1 ++ audio2)
  else
    (npBinop (fun u v => u * v) (takeLastPy fade_samples audio1)
        (linspace 1 0 fade_samples)).bind fun audio1_end =>
      (npBinop (fun u v => u * v) (audio2.take fade_samples)
          (linspace 0 1 fade_samples)).bind fun audio2_start =>
        (npBinop (fun u v => u + v) audio1_end audio2_start).map fun crossfaded =>
          dropLastPy fade_samples audio1 ++ crossfaded ++ audio2.drop fade_samples

/-- Sum of the squared samples, the numerator of np.mean(audio ** 2). -/
def sumSq (l : List ℝ) : ℝ := (l.map (fun x => x ^ 2)).sum

/-- np.sqrt(np.mean(audio ** 2)).  The mean of an empty array is modelled as
0 (numpy yields NaN there; both NaN and 0 fail the rms > 0 test below, so
the embedded branch agrees with the source). -/
noncomputable def rms (l : List ℝ) : ℝ := Real.sqrt (sumSq l / l.length)

/-- np.clip(x, -1.0, 1.0). -/
def clip1 {α : Type} [LinearOrderedField α] (x : α) : α := max (-1) (min 1 x)

/-- AudioStitcher.normalize_audio: when the measured RMS is positive, scale
every sample by 10 ^ (target_db / 20) / RMS; then clip every sample to
[-1, 1].  As in the source, the clip is applied on both branches. -/
noncomputable def normalize_audio (audio : List ℝ) (target_db : ℝ) : List ℝ :=
  let r := rms audio
  let scaled :=
    if r > 0 then audio.map (fun x => x * ((10 : ℝ) ^ (target_db / 20) / r)) else audio
  scaled.map clip1

/-- Reference definition of normalization in the specification's words: if
RMS > 0, scale then clip; if RMS is zero, return the buffer unchanged. -/
noncomputable def normalize_ref (audio : List ℝ) (target_db : ℝ) : List ℝ :=
  let r := rms audio
  if r > 0 then (audio.map (fun x => x * ((10 : ℝ) ^ (target_db / 20) / r))).map clip1
  else audio

/-- The index array np.linspace(0, n - 1, m).astype(int) of stitch_panel:
m evenly spaced fractional positions over the original index range,
truncated toward zero (the values are nonnegative for n at least 1, so
truncation is the floor). -/
def resample_indices (n m : ℕ) : List ℕ :=
  (linspace (0 : ℚ) ((n : ℚ) - 1) m).map (fun x => ⌊x⌋₊)

/-- The inline nearest-neighbour resampling block of
AudioStitcher.stitch_panel: new_length = int(len(audio) * to_rate / from_rate)
followed by fancy indexing with resample_indices, in exact rational
arithmetic in place of floats.  from_rate is assumed positive, as in the
source (a zero rate raises ZeroDivisionError in Python). -/
def resample_nn {α : Type} [LinearOrderedField α] (audio : List α)
    (from_rate to_rate : ℕ) : List α :=
  let new_length := ⌊((audio.length : ℚ) * to_rate) / from_rate⌋₊
  (resample_indices audio.length new_length).map (fun idx => audio.getD idx 0)

/-- Resampling as performed by stitch_panel: skipped (identity) when the
clip's rate equals the stitcher's configured rate. -/
def resample_linear {α : Type} [LinearOrderedField α] (audio : List α)
    (from_rate to_rate : ℕ) : List α :=
  if from_rate = to_rate then audio else resample_nn audio from_rate to_rate

/-- Resampling as worded in the claim: new_length = round(len * to / from)
and nearest-integer indices, rounding where the source truncates.  Stated
over ℚ for comparison with resample_linear. -/
def resample_claim (audio : List ℚ) (from_rate to_rate : ℕ) : List ℚ :=
  if from_rate = to_rate then audio else
  let new_length := (round (((audio.length : ℚ) * to_rate) / from_rate)).toNat
  ((linspace (0 : ℚ) ((audio.length : ℚ) - 1) new_length).map (fun x => (round x).toNat)).map
    (fun idx => audio.getD idx 0)

/-- Amended description of the resampler: new_length is the floor of
len * to_rate / from_rate, and output sample i is the original sample at
index floor(i * (len - 1) / (new_length - 1)), in natural-number
arithmetic. -/
def resample_floor {α : Type} [LinearOrderedField α] (audio : List α)
    (from_rate to_rate : ℕ) : List α :=
  if from_rate = to_rate then audio else
  (List.range (audio.length * to_rate / from_rate)).map fun i =>
    audio.getD (i * (audio.length - 1) / (audio.length * to_rate / from_rate - 1)) 0

/-- The per-clip processing of AudioStitcher.stitch_panel: resample when the
clip's sample rate differs from the stitcher's, then normalize when
requested (with the normalize_audio default target of -20 dB). -/
noncomputable def process_clip (sample_rate : ℕ) (norm : Bool) (clip : List ℝ × ℕ) :
    List ℝ :=
  let audio := if clip.2 ≠ sample_rate then resample_nn clip.1 clip.2 sample_rate else clip.1
  if norm then normalize_audio audio (-20) else audio

/-- AudioStitcher.stitch_panel: raises ValueError (none) on an empty clip
list; otherwise processes each clip and folds the results together with a
pause of silence between consecutive clips, returning the stitcher's
configured sample rate. -/
noncomputable def stitch_panel (sample_rate : ℕ) (audio_clips : List (List ℝ × ℕ))
    (pause_between_ms : ℕ) (norm : Bool) : Option (List ℝ × ℕ) :=
  match audio_clips.map (process_clip sample_rate norm) with
  | [] => none
  | c :: rest =>
      some
        (rest.foldl
          (fun combined clip => combined ++ add_silence sample_rate pause_between_ms ++ clip) c,
          sample_rate)

/-- Concatenation of chunks with one separator between every pair of
consecutive chunks and none at either end: the shape the specification
claims for the stitched output. -/
def joinWith {α : Type} (sep : List α) : List (List α) → List α
  | [] => []
  | [c] => c
  | c :: c2 :: rest => c ++ sep ++ joinWith sep (c2 :: rest)

/-- A character record of the Template Store (prompts/character_prompts.json,
modelled from the data model of the specification): topics maps canonical
topic keys to scripted lines, intro_phrases holds the fallback fragments
(the source substitutes the one-element list of an empty string when the
key is absent). -/
structure Character where
  name : String
  language : String
  topics : List (String × String)
  intro_phrases : List String
  sample_file : Option String
  deriving DecidableEq

/-- One entry of the generated panel script. -/
structure ScriptLine where
  character_id : String
  character_name : String
  language : String
  line : String
  sample_file : String
  deriving DecidableEq

/-- ScriptGenerator._normalize_topic: lower-case and trim the topic, then
substitute an alias when the alias table defines one. -/
def normalize_topic (topic_aliases : List (String × String)) (topic : String) : String :=
  let topic_lower := topic.toLower.trim
  match topic_aliases.lookup topic_lower with
  | some canonical => canonical
  | none => topic_lower

/-- The generic fallback sentence of ScriptGenerator.generate_panel_script,
with the pseudo-randomly chosen intro fragment passed in. -/
def fallback_line (intro topic : String) : String :=
  intro ++ " " ++ topic ++
    " is an important subject that deserves our attention and thoughtful discussion."

/-- The script entry generate_panel_script builds for one character.  choose
models random.choice applied to the character's intro fragments. -/
def mk_script_line (choose : List String → String) (topic_aliases : List (String × String))
    (topic : String) (char_id : String) (char : Character) : ScriptLine :=
  { character_id := char_id
    character_name := char.name
    language := char.language
    line :=
      match char.topics.lookup (normalize_topic topic_aliases topic) with
      | some l => l
      | none => fallback_line (choose char.intro_phrases) topic
    sample_file := char.sample_file.getD (char_id ++ ".wav") }

/-- ScriptGenerator.generate_panel_script: one entry per identifier of
character_order that the store knows, in input order with duplicates kept;
identifiers absent from the store are skipped silently.  characters models
the Template Store mapping and choose models random.choice. -/
def generate_panel_script (choose : List String → String)
    (topic_aliases : List (String × String)) (characters : String → Option Character)
    (topic : String) (character_order : List String) : List ScriptLine :=
  character_order.filterMap fun char_id =>
    (characters char_id).map (mk_script_line choose topic_aliases topic char_id)

/-- The pattern pat occurs inside s as a contiguous substring. -/
def strHasInfix (pat s : String) : Prop := ∃ pre post, s = pre ++ pat ++ post

/-- VoiceCloner.generate_speech over an opaque prompt type P and waveform
type W; model_gen stands for the external pretrained model call.  The
prompt cache is passed and returned explicitly; a voice id with no cached
prompt raises ValueError (Except.error) before anything else happens, so
the cache comes back untouched. -/
def generate_speech {P W : Type} (model_gen : String → String → P → W × ℕ)
    (voice_prompts : List (String × P)) (voice_id text language : String) :
    Except String (W × ℕ) × List (String × P) :=
  match voice_prompts.lookup voice_id with
  | none =>
      (Except.error ("Voice " ++ voice_id ++ " not loaded. Call load_voice_sample first."),
        voice_prompts)
  | some prompt => (Except.ok (model_gen text language prompt), voice_prompts)

/-! Helper lemmas. -/

/-- Int.toNat of a numeral literal (the form norm_num leaves behind). -/
theorem int_toNat_lit (n : ℕ) : Int.toNat (@OfNat.ofNat ℤ n (@instOfNat n)) = n := rfl

/-- The length of a linspace is its sample count. -/
theorem linspace_length {α : Type} [LinearOrderedField α] (a b : α) (m : ℕ) :
    (linspace a b m).length = m := by
  rw [linspace, List.length_map, List.length_range]

/-- Natural floor of a natural cast divided by (m - 1), in every case of m
(division by zero is zero on both sides). -/
theorem nat_floor_cast_div_sub_one (a m : ℕ) :
    ⌊(a : ℚ) / ((m : ℚ) - 1)⌋₊ = a / (m - 1) := by
  match m with
  | 0 => simp [Nat.floor_of_nonpos, div_nonpos_of_nonneg_of_nonpos]
  | 1 => simp
  | k + 2 =>
      rw [show ((k + 2 : ℕ) : ℚ) - 1 = ((k + 1 : ℕ) : ℚ) by push_cast; ring,
        Nat.floor_div_eq_div]
      congr 1

/-! Claim C6: stitching an empty clip list fails. -/

/-- C6: stitch_panel applied to the empty clip list fails with the
empty-input condition (none); no buffer and no sample rate are produced. -/
theorem stitch_panel_empty (sample_rate pause_between_ms : ℕ) (norm : Bool) :
    stitch_panel sample_rate [] pause_between_ms norm = none := rfl

/-! Claim C4: length and content of generated silence. -/

/-- C4 counterexample: at a configured rate of 1500 Hz and a duration of
1 ms the source generates int(1500 / 1000) = 1 zero sample, while the
claimed round(1500 * 1 / 1000) is 2. -/
theorem add_silence_round_counterexample :
    (add_silence (α := ℚ) 1500 1).length = 1 ∧ round ((1500 * 1 : ℚ) / 1000) = 2 ∧
      (1 : ℤ) ≠ 2 := by
  refine ⟨by norm_num [add_silence], ?_, by norm_num⟩
  rw [round_eq]
  norm_num

/-- C4 amended: silence(duration_ms) returns a buffer of exactly
floor(sample_rate * duration_ms / 1000) samples (Python int() truncation,
not rounding), all of them zero. -/
theorem add_silence_floor {α : Type} [LinearOrderedField α] (sample_rate duration_ms : ℕ) :
    (add_silence (α := α) sample_rate duration_ms).length =
        sample_rate * duration_ms / 1000 ∧
      ∀ x ∈ add_silence (α := α) sample_rate duration_ms, x = 0 := by
  constructor
  · simp [add_silence]
  · intro x hx
    simp only [add_silence] at hx
    exact List.eq_of_mem_replicate hx

/-- Witness for C4 at a concrete rate and duration. -/
theorem add_silence_floor_witness :
    (add_silence (α := ℚ) 1000 2).length = 1000 * 2 / 1000 ∧ (0 : ℚ) = 0 :=
  ⟨(add_silence_floor 1000 2).1,
    (add_silence_floor 1000 2).2 0 (by norm_num [add_silence, List.mem_replicate])⟩

/-! Claim C9: synthesis without a cached voice token. -/

/-- C9: when the id has no cached voice prompt, generate_speech fails with
the voice-not-loaded error and returns the prompt cache unchanged. -/
theorem generate_speech_not_loaded {P W : Type} (model_gen : String → String → P → W × ℕ)
    (voice_prompts : List (String × P)) (voice_id text language : String)
    (h : voice_prompts.lookup voice_id = none) :
    (generate_speech model_gen voice_prompts voice_id text language).1 =
        Except.error ("Voice " ++ voice_id ++ " not loaded. Call load_voice_sample first.") ∧
      (generate_speech model_gen voice_prompts voice_id text language).2 = voice_prompts := by
  simp [generate_speech, h]

/-- Witness for C9 at a concrete empty cache. -/
theorem generate_speech_not_loaded_witness :
    (([] : List (String × Unit)).lookup "modi" = none) ∧
      (generate_speech (fun _ _ _ => ((), 0)) ([] : List (String × Unit)) "modi" "Hi" "Auto").1 =
        Except.error ("Voice " ++ "modi" ++ " not loaded. Call load_voice_sample first.") :=
  ⟨rfl, (generate_speech_not_loaded (fun _ _ _ => ((), 0)) [] "modi" "Hi" "Auto" rfl).1⟩

/-! Claim C2: the resampler. -/

/-- C2 counterexample: the source truncates where the claim rounds.  For the
one-sample buffer resampled from rate 2 to rate 3 the source produces
int(1 * 3 / 2) = 1 sample but the claimed round(1 * 3 / 2) = 2 samples; and
for a three-sample buffer resampled from 3 to 5 the fractional index 1.5 is
truncated to 1 by the source where the claimed nearest-integer index is 2,
so the sample lists differ as well. -/
theorem resample_round_counterexample :
    resample_linear (α := ℚ) [0] 2 3 = [0] ∧ resample_claim [0] 2 3 = [0, 0] ∧
      resample_linear (α := ℚ) [0, 5, 9] 3 5 = [0, 0, 5, 5, 9] ∧
      resample_claim [0, 5, 9] 3 5 = [0, 5, 5, 9, 9] ∧ ([0] : List ℚ) ≠ [0, 0] := by
  have hf1 : ⌊(3 : ℚ) / 2⌋₊ = 1 := by rw [Nat.floor_eq_iff] <;> norm_num
  have hf2 : ⌊(1 : ℚ) / 2⌋₊ = 0 := by norm_num
  refine ⟨?_, ?_, ?_, ?_, by simp⟩
  · rw [resample_linear]
    norm_num [resample_nn, resample_indices, linspace, List.range_succ, hf1]
  · rw [resample_claim]
    norm_num [round_eq, linspace, List.range_succ, int_toNat_lit]
    rfl
  · rw [resample_linear]
    norm_num [resample_nn, resample_indices, linspace, List.range_succ, hf1, hf2]
  · rw [resample_claim]
    norm_num [round_eq, linspace, List.range_succ, int_toNat_lit]
    rw [show Int.toNat 5 = 5 from rfl]
    norm_num [List.range_succ, round_eq]
    rfl

/-- C2 amended: resampling is the identity when the rates match; otherwise
the output has floor(len * to_rate / from_rate) samples (Python int()
truncation, not rounding) and sample i is the original sample at the
truncated index floor(i * (len - 1) / (new_length - 1)), exactly
resample_floor. -/
theorem resample_eq_floor {α : Type} [LinearOrderedField α]
    (audio : List α) (from_rate to_rate r : ℕ) :
    resample_linear audio r r = audio ∧
      resample_linear audio from_rate to_rate = resample_floor audio from_rate to_rate := by
  constructor
  · simp [resample_linear]
  · by_cases h : from_rate = to_rate
    · simp [resample_linear, resample_floor, h]
    · simp only [resample_linear, resample_floor, if_neg h]
      rcases Nat.eq_zero_or_pos audio.length with hn | hn
      · rw [List.length_eq_zero.mp hn]
        simp [resample_nn, resample_indices, linspace]
      · rw [resample_nn]
        have hm : ⌊((audio.length : ℚ) * to_rate) / from_rate⌋₊ =
            audio.length * to_rate / from_rate := by
          rw [show ((audio.length : ℚ) * to_rate) = ((audio.length * to_rate : ℕ) : ℚ) by
            push_cast; ring]
          exact Nat.floor_div_eq_div _ _
        rw [hm, resample_indices, linspace, List.map_map, List.map_map]
        apply List.map_congr_left
        intro i hi
        simp only [Function.comp_apply]
        congr 1
        rw [show (0 : ℚ) + (i : ℚ) * (((audio.length : ℚ) - 1) - 0) /
              (((audio.length * to_rate / from_rate : ℕ) : ℚ) - 1) =
            ((i * (audio.length - 1) : ℕ) : ℚ) /
              (((audio.length * to_rate / from_rate : ℕ) : ℚ) - 1) by
          rw [show ((audio.length : ℚ) - 1) = ((audio.length - 1 : ℕ) : ℚ) by
            rw [Nat.cast_sub hn]; norm_num]
          push_cast
          ring]
        exact nat_floor_cast_div_sub_one _ _

/-! Claim C1: crossfade output length. -/

/-- C1 counterexample: with rate 1000 and a 1 ms fade, fade_samples = 1 and
two one-sample buffers do not strictly exceed the fade length, so the
claim's otherwise-branch predicts length 1 + 1 = 2; the source nonetheless
crossfades and produces 1 sample.  Moreover with a 0 ms fade (fade_samples
= 0) two two-sample buffers both exceed 0, yet the source fails on a numpy
broadcast error instead of producing any buffer. -/
theorem crossfade_length_counterexample :
    (crossfade (α := ℚ) 1000 [0] [0] 1).map List.length = some 1 ∧
      ¬(1000 * 1 / 1000 < List.length [(0 : ℚ)]) ∧
      (1 : ℕ) ≠ List.length [(0 : ℚ)] + List.length [(0 : ℚ)] ∧
      crossfade (α := ℚ) 1000 [0, 0] [0, 0] 0 = none := by
  refine ⟨?_, by norm_num, by norm_num, ?_⟩
  · norm_num [crossfade, npBinop, takeLastPy, dropLastPy, linspace, List.range_succ]
  · norm_num [crossfade, npBinop, takeLastPy, dropLastPy, linspace, List.range_succ]

/-- C1 amended: when either buffer is strictly shorter than fade_samples the
output is the plain concatenation, of length len(A) + len(B); when both
buffers are at least fade_samples long and fade_samples is at least 1, the
output length is len(A) + len(B) - fade_samples.  (At fade_samples = 0 the
crossfade branch still runs and misbehaves: Python's a[-0:] and a[:-0]
slices drop audio1 entirely or numpy raises a broadcast error.) -/
theorem crossfade_length_amended {α : Type} [LinearOrderedField α] (sample_rate : ℕ)
    (audio1 audio2 : List α) (fade_duration_ms : ℕ) :
    ((audio1.length < sample_rate * fade_duration_ms / 1000 ∨
        audio2.length < sample_rate * fade_duration_ms / 1000) →
      (crossfade sample_rate audio1 audio2 fade_duration_ms).map List.length =
        some (audio1.length + audio2.length)) ∧
    (1 ≤ sample_rate * fade_duration_ms / 1000 →
      sample_rate * fade_duration_ms / 1000 ≤ audio1.length →
      sample_rate * fade_duration_ms / 1000 ≤ audio2.length →
      (crossfade sample_rate audio1 audio2 fade_duration_ms).map List.length =
        some (audio1.length + audio2.length - sample_rate * fade_duration_ms / 1000)) := by
  constructor
  · intro h
    rw [crossfade]
    rw [if_pos h]
    simp
  · intro h1 hA hB
    have hcond : ¬(audio1.length < sample_rate * fade_duration_ms / 1000 ∨
        audio2.length < sample_rate * fade_duration_ms / 1000) := by omega
    have hfs0 : sample_rate * fade_duration_ms / 1000 ≠ 0 := by omega
    rw [crossfade, if_neg hcond]
    have hl1 : (takeLastPy (sample_rate * fade_duration_ms / 1000) audio1).length =
        sample_rate * fade_duration_ms / 1000 := by
      rw [takeLastPy, if_neg hfs0, List.length_drop]
      omega
    have hl2 : (audio2.take (sample_rate * fade_duration_ms / 1000)).length =
        sample_rate * fade_duration_ms / 1000 := by
      rw [List.length_take]
      omega
    have e1 : npBinop (fun u v => u * v)
        (takeLastPy (sample_rate * fade_duration_ms / 1000) audio1)
        (linspace 1 0 (sample_rate * fade_duration_ms / 1000)) =
        some (List.zipWith (fun u v => u * v)
          (takeLastPy (sample_rate * fade_duration_ms / 1000) audio1)
          (linspace 1 0 (sample_rate * fade_duration_ms / 1000))) := by
      rw [npBinop, if_pos]
      rw [hl1, linspace_length]
    have e2 : npBinop (fun u v => u * v)
        (audio2.take (sample_rate * fade_duration_ms / 1000))
        (linspace 0 1 (sample_rate * fade_duration_ms / 1000)) =
        some (List.zipWith (fun u v => u * v)
          (audio2.take (sample_rate * fade_duration_ms / 1000))
          (linspace 0 1 (sample_rate * fade_duration_ms / 1000))) := by
      rw [npBinop, if_pos]
      rw [hl2, linspace_length]
    rw [e1, Option.some_bind, e2, Option.some_bind]
    rw [show npBinop (fun u v => u + v)
        (List.zipWith (fun u v => u * v)
          (takeLastPy (sample_rate * fade_duration_ms / 1000) audio1)
          (linspace 1 0 (sample_rate * fade_duration_ms / 1000)))
        (List.zipWith (fun u v => u * v)
          (audio2.take (sample_rate * fade_duration_ms / 1000))
          (linspace 0 1 (sample_rate * fade_duration_ms / 1000))) =
        some (List.zipWith (fun u v => u + v)
          (List.zipWith (fun u v => u * v)
            (takeLastPy (sample_rate * fade_duration_ms / 1000) audio1)
            (linspace 1 0 (sample_rate * fade_duration_ms / 1000)))
          (List.zipWith (fun u v => u * v)
            (audio2.take (sample_rate * fade_duration_ms / 1000))
            (linspace 0 1 (sample_rate * fade_duration_ms / 1000)))) from by
      rw [npBinop, if_pos]
      simp [hl1, hl2, linspace_length]]
    simp only [Option.map_some']
    simp only [Option.some.injEq]
    simp [List.length_append, List.length_zipWith, hl1, hl2, linspace_length,
      dropLastPy, if_neg hfs0, List.length_take, List.length_drop]
    omega

/-- Witness for C1 at concrete inputs: the concatenation branch and the
crossfade branch. -/
theorem crossfade_length_witness :
    (crossfade (α := ℚ) 1000 [0] [0, 0, 0] 2).map List.length = some 4 ∧
      1 ≤ 1000 * 1 / 1000 ∧
      (crossfade (α := ℚ) 1000 [0, 0] [0, 0] 1).map List.length = some 3 :=
  ⟨(crossfade_length_amended 1000 [0] [0, 0, 0] 2).1 (Or.inl (by norm_num)),
    by norm_num,
    (crossfade_length_amended 1000 [0, 0] [0, 0] 1).2 (by norm_num) (by norm_num)
      (by norm_num)⟩

/-! Claim C3: normalization. -/

/-- The sum of squares of a list is nonnegative. -/
theorem sumSq_nonneg (l : List ℝ) : 0 ≤ sumSq l := by
  induction l with
  | nil => simp [sumSq]
  | cons a l ih =>
      simp only [sumSq, List.map_cons, List.sum_cons] at ih ⊢
      have ha : 0 ≤ a ^ 2 := sq_nonneg a
      linarith

/-- A zero sum of squares forces every sample to be zero. -/
theorem sumSq_eq_zero_all {l : List ℝ} (h : sumSq l = 0) : ∀ x ∈ l, x = 0 := by
  induction l with
  | nil => simp
  | cons a l ih =>
      simp only [sumSq, List.map_cons, List.sum_cons] at h
      have ha : 0 ≤ a ^ 2 := sq_nonneg a
      have hl : 0 ≤ sumSq l := sumSq_nonneg l
      have ha0 : a ^ 2 = 0 := by
        simp only [sumSq] at hl
        linarith
      have hl0 : sumSq l = 0 := by
        simp only [sumSq] at hl ⊢
        linarith
      intro x hx
      rcases List.mem_cons.mp hx with rfl | hx
      · exact pow_eq_zero_iff (n := 2) (by norm_num) |>.mp ha0
      · exact ih hl0 x hx

/-- All-zero samples give a zero sum of squares. -/
theorem sumSq_all_zero {l : List ℝ} (h : ∀ x ∈ l, x = 0) : sumSq l = 0 := by
  induction l with
  | nil => simp [sumSq]
  | cons a l ih =>
      simp only [sumSq, List.map_cons, List.sum_cons]
      rw [h a (List.mem_cons_self a l)]
      simp only [sumSq] at ih
      rw [ih (fun x hx => h x (List.mem_cons_of_mem a hx))]
      norm_num

/-- Clipping fixes zero. -/
theorem clip1_zero : clip1 (0 : ℝ) = 0 := by
  simp [clip1]

/-- Every clipped value lies in [-1, 1]. -/
theorem clip1_mem_Icc {α : Type} [LinearOrderedField α] (x : α) :
    -1 ≤ clip1 x ∧ clip1 x ≤ 1 :=
  ⟨le_max_left _ _, max_le (by norm_num) (min_le_left _ _)⟩

/-- When the RMS is not positive the buffer is all-zero (or empty), so the
final clip of normalize_audio leaves it unchanged. -/
theorem map_clip1_of_rms_not_pos (audio : List ℝ) (h : ¬rms audio > 0) :
    audio.map clip1 = audio := by
  have hr0 : rms audio = 0 := le_antisymm (not_lt.mp h) (Real.sqrt_nonneg _)
  have hdiv : sumSq audio / (audio.length : ℝ) = 0 := by
    have hle : sumSq audio / (audio.length : ℝ) ≤ 0 := Real.sqrt_eq_zero'.mp hr0
    have hge : 0 ≤ sumSq audio / (audio.length : ℝ) :=
      div_nonneg (sumSq_nonneg audio) (Nat.cast_nonneg _)
    linarith
  rcases div_eq_zero_iff.mp hdiv with hs | hn
  · have hz := sumSq_eq_zero_all hs
    have hmap : audio.map clip1 = audio.map id :=
      List.map_congr_left (fun x hx => by rw [hz x hx, clip1_zero]; rfl)
    rw [hmap, List.map_id]
  · have : audio.length = 0 := Nat.cast_eq_zero.mp hn
    rw [List.length_eq_zero.mp this]
    rfl

/-- C3: normalize_audio agrees with the reference definition of the
specification on every buffer (over exact real arithmetic the always-applied
clip is harmless in the zero-RMS branch, where the buffer is all zero); an
all-zero buffer comes back unchanged; and every output sample lies in
[-1, 1]. -/
theorem normalize_audio_spec (audio : List ℝ) (target_db : ℝ) :
    normalize_audio audio target_db = normalize_ref audio target_db ∧
      ((∀ x ∈ audio, x = 0) → normalize_audio audio target_db = audio) ∧
      ∀ y ∈ normalize_audio audio target_db, -1 ≤ y ∧ y ≤ 1 := by
  refine ⟨?_, ?_, ?_⟩
  · rw [normalize_audio, normalize_ref]
    by_cases h : rms audio > 0
    · simp only [if_pos h]
    · simp only [if_neg h]
      exact map_clip1_of_rms_not_pos audio h
  · intro hz
    have hrms : rms audio = 0 := by
      rw [rms, sumSq_all_zero hz]
      simp
    have hnp : ¬rms audio > 0 := by rw [hrms]; exact lt_irrefl 0
    rw [normalize_audio]
    simp only [if_neg hnp]
    exact map_clip1_of_rms_not_pos audio hnp
  · intro y hy
    rw [normalize_audio] at hy
    simp only [List.mem_map] at hy
    obtain ⟨x, hx, rfl⟩ := hy
    exact clip1_mem_Icc x

/-- Witness for C3 on the one-sample zero buffer. -/
theorem normalize_audio_spec_witness :
    normalize_audio [(0 : ℝ)] (-20) = [0] ∧ (-1 : ℝ) ≤ 0 ∧ (0 : ℝ) ≤ 1 := by
  have h := normalize_audio_spec [(0 : ℝ)] (-20)
  have hz : normalize_audio [(0 : ℝ)] (-20) = [0] := h.2.1 (by intro x hx; simpa using hx)
  refine ⟨hz, ?_, ?_⟩
  · exact (h.2.2 0 (by rw [hz]; exact List.mem_singleton_self 0)).1
  · exact (h.2.2 0 (by rw [hz]; exact List.mem_singleton_self 0)).2

/-! Claim C5: stitching shape and the concrete scenario. -/

/-- Pulling an already-joined prefix out of a joinWith. -/
theorem joinWith_cons_append {α : Type} (sep x y : List α) (rest : List (List α)) :
    joinWith sep ((x ++ sep ++ y) :: rest) = x ++ sep ++ joinWith sep (y :: rest) := by
  cases rest with
  | nil => rfl
  | cons d r => simp [joinWith, List.append_assoc]

/-- The stitching fold is exactly separator-interleaved concatenation. -/
theorem foldl_joinWith {α : Type} (sep : List α) (rest : List (List α)) (acc : List α) :
    rest.foldl (fun combined clip => combined ++ sep ++ clip) acc =
      joinWith sep (acc :: rest) := by
  induction rest generalizing acc with
  | nil => rfl
  | cons c r ih =>
      rw [List.foldl_cons, ih (acc ++ sep ++ c), joinWith_cons_append]
      rfl

/-- Normalization preserves the sample count. -/
theorem normalize_audio_length (audio : List ℝ) (target_db : ℝ) :
    (normalize_audio audio target_db).length = audio.length := by
  rw [normalize_audio]
  by_cases h : rms audio > 0 <;> simp [h]

/-- C5: on any non-empty clip list, stitch_panel returns the processed
buffers concatenated in input order with exactly one pause of silence
between consecutive buffers and none at the ends, together with the
configured sample rate; and in the claimed scenario (A of 24000 samples and
B of 12000 samples, both at 24 kHz, pause 500 ms) the output has exactly
48000 samples at rate 24000. -/
theorem stitch_panel_join (sample_rate pause_between_ms : ℕ) (norm : Bool)
    (c : List ℝ × ℕ) (cs : List (List ℝ × ℕ)) :
    stitch_panel sample_rate (c :: cs) pause_between_ms norm =
        some (joinWith (add_silence sample_rate pause_between_ms)
          ((c :: cs).map (process_clip sample_rate norm)), sample_rate) ∧
      (stitch_panel 24000 [(List.replicate 24000 (0 : ℝ), 24000),
            (List.replicate 12000 (0 : ℝ), 24000)] 500 true).map
          (fun p => (p.1.length, p.2)) = some (48000, 24000) := by
  constructor
  · rw [stitch_panel]
    simp only [List.map_cons]
    rw [foldl_joinWith]
  · rw [stitch_panel]
    simp only [List.map_cons, List.map_nil]
    rw [foldl_joinWith]
    simp only [Option.map_some']
    have hp : ∀ a : List ℝ, (process_clip 24000 true (a, 24000)).length = a.length := by
      intro a
      simp [process_clip, normalize_audio_length]
    simp only [joinWith, List.length_append, hp, List.length_replicate, add_silence]


/-- When the operand lengths agree, a numpy binary operation is a zipWith. -/
theorem npBinop_eq {α : Type} [LinearOrderedField α] (f : α → α → α) (x y : List α)
    (h : x.length = y.length) : npBinop f x y = some (List.zipWith f x y) := by
  rw [npBinop, if_pos h]

/-- The i-th point of a linspace, in bracket form. -/
theorem linspace_getElem {α : Type} [LinearOrderedField α] (a b : α) (m i : ℕ)
    (h : i < (linspace a b m).length) :
    (linspace a b m)[i] = a + (i : α) * (b - a) / ((m : α) - 1) := by
  simp only [linspace, List.getElem_map, List.getElem_range]

/-- The fade weight i / (m - 1) lies in [0, 1] for every index i < m (at
m = 1 the division by zero yields 0). -/
theorem linspace_weight_bounds {α : Type} [LinearOrderedField α] (i m : ℕ) (h : i < m) :
    0 ≤ (i : α) / ((m : α) - 1) ∧ (i : α) / ((m : α) - 1) ≤ 1 := by
  match m with
  | 0 => omega
  | 1 =>
      have hi : i = 0 := by omega
      subst hi
      norm_num
  | k + 2 =>
      have hd : (0 : α) < ((k + 2 : ℕ) : α) - 1 := by
        have hc : ((k + 2 : ℕ) : α) = (k : α) + 2 := by push_cast; ring
        have hk : (0 : α) ≤ (k : α) := Nat.cast_nonneg k
        rw [hc]
        linarith
      constructor
      · exact div_nonneg (Nat.cast_nonneg i) (le_of_lt hd)
      · rw [div_le_one hd]
        have hik : i ≤ k + 1 := by omega
        have hc2 : (i : α) ≤ ((k + 1 : ℕ) : α) := Nat.cast_le.mpr hik
        push_cast at hc2 ⊢
        linarith

/-- A convex combination of two values of [-1, 1] stays in [-1, 1]. -/
theorem convex_comb_bounds {α : Type} [LinearOrderedField α] (a b t : α)
    (ha1 : -1 ≤ a) (ha2 : a ≤ 1) (hb1 : -1 ≤ b) (hb2 : b ≤ 1)
    (ht1 : 0 ≤ t) (ht2 : t ≤ 1) :
    -1 ≤ a * (1 - t) + b * t ∧ a * (1 - t) + b * t ≤ 1 := by
  constructor
  · nlinarith [mul_nonneg (by linarith : (0 : α) ≤ a + 1) (by linarith : (0 : α) ≤ 1 - t),
      mul_nonneg (by linarith : (0 : α) ≤ b + 1) ht1]
  · nlinarith [mul_nonneg (by linarith : (0 : α) ≤ 1 - a) (by linarith : (0 : α) ≤ 1 - t),
      mul_nonneg (by linarith : (0 : α) ≤ 1 - b) ht1]

/-- Every sample of the summed overlap region is the convex combination of
one sample of each operand, because the fade-out and fade-in ramps sum to
1 at every overlap position, so it stays in [-1, 1]. -/
theorem crossfade_core_bounds {α : Type} [LinearOrderedField α] (u v : List α) (m : ℕ)
    (hu : u.length = m) (hv : v.length = m)
    (hub : ∀ x ∈ u, -1 ≤ x ∧ x ≤ 1) (hvb : ∀ x ∈ v, -1 ≤ x ∧ x ≤ 1) :
    ∀ x ∈ List.zipWith (fun a b => a + b)
        (List.zipWith (fun a b => a * b) u (linspace 1 0 m))
        (List.zipWith (fun a b => a * b) v (linspace 0 1 m)),
      -1 ≤ x ∧ x ≤ 1 := by
  intro x hx
  rw [List.mem_iff_getElem] at hx
  obtain ⟨i, hi, hxi⟩ := hx
  have him : i < m := by
    simp only [List.length_zipWith, linspace_length, hu, hv] at hi
    omega
  rw [← hxi]
  simp only [List.getElem_zipWith]
  rw [linspace_getElem, linspace_getElem]
  have e1 : (1 : α) + (i : α) * ((0 : α) - 1) / ((m : α) - 1) =
      1 - (i : α) / ((m : α) - 1) := by ring
  have e2 : (0 : α) + (i : α) * ((1 : α) - 0) / ((m : α) - 1) =
      (i : α) / ((m : α) - 1) := by ring
  rw [e1, e2]
  obtain ⟨ht1, ht2⟩ := linspace_weight_bounds (α := α) i m him
  obtain ⟨hua, hua2⟩ := hub _ (List.getElem_mem _)
  obtain ⟨hva, hva2⟩ := hvb _ (List.getElem_mem _)
  exact convex_comb_bounds _ _ _ hua hua2 hva hva2 ht1 ht2

/-- C10: whenever both buffers are at least fade_samples long, have all
their samples in [-1, 1], and the crossfade succeeds, every sample of the
output also lies in [-1, 1]: overlap samples are convex combinations and
the remaining samples are copied unchanged. -/
theorem crossfade_bounded {α : Type} [LinearOrderedField α] (sample_rate : ℕ)
    (audio1 audio2 : List α) (fade_duration_ms : ℕ) (out : List α)
    (h1 : ∀ x ∈ audio1, -1 ≤ x ∧ x ≤ 1) (h2 : ∀ x ∈ audio2, -1 ≤ x ∧ x ≤ 1)
    (hA : sample_rate * fade_duration_ms / 1000 ≤ audio1.length)
    (hB : sample_rate * fade_duration_ms / 1000 ≤ audio2.length)
    (hout : crossfade sample_rate audio1 audio2 fade_duration_ms = some out) :
    ∀ x ∈ out, -1 ≤ x ∧ x ≤ 1 := by
  rw [crossfade] at hout
  by_cases hcond : audio1.length < sample_rate * fade_duration_ms / 1000 ∨
      audio2.length < sample_rate * fade_duration_ms / 1000
  · rw [if_pos hcond, Option.some.injEq] at hout
    subst hout
    intro x hx
    rcases List.mem_append.mp hx with hx1 | hx2
    · exact h1 x hx1
    · exact h2 x hx2
  · rw [if_neg hcond] at hout
    rcases Nat.eq_zero_or_pos (sample_rate * fade_duration_ms / 1000) with hfs0 | hfs1
    · rw [hfs0] at hout
      rcases audio1 with _ | ⟨a, rest⟩
      · simp [npBinop, takeLastPy, dropLastPy, linspace] at hout
        subst hout
        intro x hx
        exact h2 x hx
      · rcases rest with _ | ⟨b, r⟩
        · simp [npBinop, takeLastPy, dropLastPy, linspace] at hout
          subst hout
          intro x hx
          exact h2 x hx
        · simp [npBinop, takeLastPy, dropLastPy, linspace] at hout
    · have hfsne : sample_rate * fade_duration_ms / 1000 ≠ 0 := by omega
      have hl1 : (takeLastPy (sample_rate * fade_duration_ms / 1000) audio1).length =
          sample_rate * fade_duration_ms / 1000 := by
        rw [takeLastPy, if_neg hfsne, List.length_drop]
        omega
      have hl2 : (audio2.take (sample_rate * fade_duration_ms / 1000)).length =
          sample_rate * fade_duration_ms / 1000 := by
        rw [List.length_take]
        omega
      rw [npBinop_eq _ _ _ (by rw [hl1, linspace_length]), Option.some_bind,
        npBinop_eq _ _ _ (by rw [hl2, linspace_length]), Option.some_bind,
        npBinop_eq _ _ _ (by simp [List.length_zipWith, hl1, hl2, linspace_length]),
        Option.map_some', Option.some.injEq] at hout
      subst hout
      intro x hx
      rcases List.mem_append.mp hx with hx12 | hx3
      · rcases List.mem_append.mp hx12 with hx1 | hx2
        · rw [dropLastPy, if_neg hfsne] at hx1
          exact h1 x (List.take_subset _ _ hx1)
        · refine crossfade_core_bounds
            (takeLastPy (sample_rate * fade_duration_ms / 1000) audio1)
            (audio2.take (sample_rate * fade_duration_ms / 1000))
            (sample_rate * fade_duration_ms / 1000) hl1 hl2 ?_ ?_ x hx2
          · intro y hy
            rw [takeLastPy, if_neg hfsne] at hy
            exact h1 y (List.drop_subset _ _ hy)
          · intro y hy
            exact h2 y (List.take_subset _ _ hy)
      · exact h2 x (List.drop_subset _ _ hx3)


/-- Witness for C10 at a concrete one-sample crossfade. -/
theorem crossfade_bounded_witness :
    crossfade (α := ℚ) 1000 [0] [0] 1 = some [0] ∧ (-1 : ℚ) ≤ 0 ∧ (0 : ℚ) ≤ 1 := by
  have hsome : crossfade (α := ℚ) 1000 [0] [0] 1 = some [0] := by
    norm_num [crossfade, npBinop, takeLastPy, dropLastPy, linspace, List.range_succ]
  have hb := crossfade_bounded 1000 [(0 : ℚ)] [0] 1 [0]
    (by intro x hx; simp at hx; simp [hx]) (by intro x hx; simp at hx; simp [hx])
    (by norm_num) (by norm_num) hsome 0 (List.mem_singleton_self 0)
  exact ⟨hsome, hb.1, hb.2⟩

/-- A deterministic stand-in for random.choice, used by the witnesses. -/
def demoChoose : List String → String := fun l => l.headD ""

/-- A concrete character record for the witnesses (the Template Store data
lives outside src/ and is modelled from the specification). -/
def demoChar : Character :=
  { name := "Demo", language := "English", topics := [],
    intro_phrases := ["Friends,"], sample_file := none }

/-- A concrete Template Store holding exactly the identifiers modi and srk. -/
def demoStore : String → Option Character := fun cid =>
  if cid = "modi" ∨ cid = "srk" then some demoChar else none

/-- C7: for every character the store knows whose topic mapping lacks the
normalized topic, the generated script line is non-empty and contains the
original (non-normalized) topic string as a substring. -/
theorem generate_fallback_contains_topic (choose : List String → String)
    (topic_aliases : List (String × String)) (characters : String → Option Character)
    (topic : String) (character_order : List String) (sl : ScriptLine)
    (hmem : sl ∈ generate_panel_script choose topic_aliases characters topic character_order)
    (ch : Character) (hch : characters sl.character_id = some ch)
    (htopic : ch.topics.lookup (normalize_topic topic_aliases topic) = none) :
    sl.line ≠ "" ∧ strHasInfix topic sl.line := by
  rw [generate_panel_script, List.mem_filterMap] at hmem
  obtain ⟨cid, hcid, hsome⟩ := hmem
  cases hc : characters cid with
  | none => rw [hc] at hsome; simp at hsome
  | some ch2 =>
      rw [hc] at hsome
      simp only [Option.map_some', Option.some.injEq] at hsome
      subst hsome
      have hid : (mk_script_line choose topic_aliases topic cid ch2).character_id = cid := rfl
      rw [hid, hc, Option.some.injEq] at hch
      subst hch
      have hline : (mk_script_line choose topic_aliases topic cid ch2).line =
          fallback_line (choose ch2.intro_phrases) topic := by
        rw [mk_script_line]
        simp only [htopic]
      constructor
      · rw [hline, fallback_line]
        intro h0
        have hlen := congrArg String.length h0
        simp only [String.length_append] at hlen
        have h79 : (" is an important subject that deserves our attention and thoughtful discussion." : String).length = 79 := by decide
        rw [h79] at hlen
        simp at hlen
      · refine ⟨choose ch2.intro_phrases ++ " ",
          " is an important subject that deserves our attention and thoughtful discussion.", ?_⟩
        rw [hline, fallback_line]

/-- Witness for C7 on a concrete store, topic and order. -/
theorem generate_fallback_contains_topic_witness :
    ("Friends, cricket is an important subject that deserves our attention and thoughtful discussion." : String) ≠ "" ∧
      strHasInfix "cricket"
        "Friends, cricket is an important subject that deserves our attention and thoughtful discussion." :=
  generate_fallback_contains_topic demoChoose [] demoStore "cricket" ["modi"]
    { character_id := "modi", character_name := "Demo", language := "English",
      line := "Friends, cricket is an important subject that deserves our attention and thoughtful discussion.",
      sample_file := "modi.wav" }
    (by decide) demoChar (by decide) (by decide)

/-- The character ids of the generated script are exactly the known ids of
character_order, in order and with duplicates kept. -/
theorem generate_map_character_id (choose : List String → String)
    (topic_aliases : List (String × String)) (characters : String → Option Character)
    (topic : String) (character_order : List String) :
    (generate_panel_script choose topic_aliases characters topic character_order).map
        (fun sl => sl.character_id) =
      character_order.filter (fun cid => (characters cid).isSome) := by
  induction character_order with
  | nil => rfl
  | cons cid rest ih =>
      rw [generate_panel_script] at ih ⊢
      rw [List.filterMap_cons]
      cases hc : characters cid with
      | none => simp [hc, List.filter_cons, ih]
      | some ch =>
          simp [hc, List.filter_cons, ih]
          rfl

/-- C8: generate_panel_script skips identifiers the store does not know
silently and produces exactly one line per known identifier, preserving
order and duplicates; in particular the order [modi, unknown_id, srk] with
modi and srk known and unknown_id absent yields exactly 2 lines. -/
theorem generate_skips_unknown (choose : List String → String)
    (topic_aliases : List (String × String)) (characters : String → Option Character)
    (topic : String) (character_order : List String) :
    (generate_panel_script choose topic_aliases characters topic character_order).map
        (fun sl => sl.character_id) =
      character_order.filter (fun cid => (characters cid).isSome) ∧
    ∀ (store2 : String → Option Character) (m s : Character),
      store2 "modi" = some m → store2 "srk" = some s → store2 "unknown_id" = none →
      (generate_panel_script choose topic_aliases store2 topic
        ["modi", "unknown_id", "srk"]).length = 2 := by
  constructor
  · exact generate_map_character_id choose topic_aliases characters topic character_order
  · intro store2 m s hm hs hu
    have h := generate_map_character_id choose topic_aliases store2 topic
      ["modi", "unknown_id", "srk"]
    have hlen := congrArg List.length h
    rw [List.length_map] at hlen
    rw [hlen]
    simp [List.filter_cons, hm, hs, hu]

/-- Witness for C8 on a concrete store holding modi and srk only. -/
theorem generate_skips_unknown_witness :
    (generate_panel_script demoChoose [] demoStore "ai"
      ["modi", "unknown_id", "srk"]).length = 2 :=
  (generate_skips_unknown demoChoose [] demoStore "ai" []).2 demoStore demoChar demoChar
    (by decide) (by decide) (by decide)

end VoicePanel
